import Mathlib

/-!
RelayBoxDisplay: a shallow embedding of `RelayBoxDisplay.h`.  The class `RelayBoxDisplay` owns an
`Adafruit_SSD1306` display and a flag `isReady`; `begin` brings the display up
and `setRelayState` draws the four relay lines.

The display driver is an external library.  It is embedded as a recording
surface: every member function the class calls on it appends one `Op` to the
list of operations performed so far.  The result of the driver's `begin` (the
hardware initialisation) is not computed by this program; it is an input of the
embedding.

`uint8_t` values are natural numbers; the truncation of `0x01 << i` to
`uint8_t` and the wrap-around of `++i` are written out with `% 256`.
-/

namespace RelayBox

/-! ## The display surface -/

/-- The two colours of the monochrome display. -/
inductive Color where
  | BLACK
  | WHITE
  deriving DecidableEq, Repr

/-- The driver's constant `SSD1306_SWITCHCAPVCC` (generate the display voltage
from 3.3V internally). -/
def SSD1306_SWITCHCAPVCC : Nat := 0x02

/-- One call of a member function of the display object. -/
inductive Op where
  /-- `display.begin(vccstate, i2caddr)`: the hardware initialisation attempt. -/
  | begin (vccstate i2caddr : Nat)
  /-- `display.clearDisplay()`. -/
  | clearDisplay
  /-- `display.setCursor(x, y)`. -/
  | setCursor (x y : Nat)
  /-- `display.setTextSize(s)`. -/
  | setTextSize (s : Nat)
  /-- `display.setTextColor(c)`. -/
  | setTextColor (c : Color)
  /-- `display.setTextColor(c, bg)`. -/
  | setTextColor2 (c bg : Color)
  /-- `display.print(F(s))`. -/
  | print (s : String)
  /-- `display.print(n)` for a `uint8_t`: prints the number in decimal. -/
  | printNum (n : Nat)
  /-- `display.println(F(s))`. -/
  | println (s : String)
  /-- `display.display()`: push the frame to the hardware. -/
  | display
  deriving DecidableEq, Repr

/-- The display object: the operations performed on it so far, oldest first. -/
structure Adafruit_SSD1306 where
  ops : List Op
  deriving DecidableEq, Repr

namespace Adafruit_SSD1306

/-- Record one operation on the display. -/
def call (d : Adafruit_SSD1306) (op : Op) : Adafruit_SSD1306 :=
  ⟨d.ops ++ [op]⟩

/-- The driver's `begin`.  The outcome `hwOk` of the hardware initialisation is
an input; the call returns that outcome together with the display. -/
def begin (d : Adafruit_SSD1306) (vccstate i2caddr : Nat) (hwOk : Bool) :
    Bool × Adafruit_SSD1306 :=
  (hwOk, d.call (Op.begin vccstate i2caddr))

def clearDisplay (d : Adafruit_SSD1306) : Adafruit_SSD1306 := d.call Op.clearDisplay

def setCursor (d : Adafruit_SSD1306) (x y : Nat) : Adafruit_SSD1306 :=
  d.call (Op.setCursor x y)

def setTextSize (d : Adafruit_SSD1306) (s : Nat) : Adafruit_SSD1306 :=
  d.call (Op.setTextSize s)

def setTextColor (d : Adafruit_SSD1306) (c : Color) : Adafruit_SSD1306 :=
  d.call (Op.setTextColor c)

def setTextColor2 (d : Adafruit_SSD1306) (c bg : Color) : Adafruit_SSD1306 :=
  d.call (Op.setTextColor2 c bg)

def print (d : Adafruit_SSD1306) (s : String) : Adafruit_SSD1306 := d.call (Op.print s)

def printNum (d : Adafruit_SSD1306) (n : Nat) : Adafruit_SSD1306 := d.call (Op.printNum n)

def println (d : Adafruit_SSD1306) (s : String) : Adafruit_SSD1306 := d.call (Op.println s)

def display (d : Adafruit_SSD1306) : Adafruit_SSD1306 := d.call Op.display

end Adafruit_SSD1306

/-! ## The class -/

/-- The class `RelayBoxDisplay`: its two data members. -/
structure RelayBoxDisplay where
  display : Adafruit_SSD1306
  isReady : Bool
  deriving DecidableEq, Repr

namespace RelayBoxDisplay

/-- A freshly constructed instance: nothing has been done on the display and
`isReady` has its initialiser `false`. -/
def fresh : RelayBoxDisplay := ⟨⟨[]⟩, false⟩

/-- The local `const uint8_t mask = 0x01 << i;`: the shift is done on `int`
and the result is truncated to eight bits. -/
def mask (i : Nat) : Nat := (0x01 <<< i) % 256

/-- The condition `relayState & mask` of the `if` in the loop: true when the
bitwise and is not zero. -/
def relayOn (relayState i : Nat) : Bool := relayState &&& mask i != 0

/-- The body of the `for` loop of `setRelayState` for one index `i`. -/
def loopBody (relayState i : Nat) (display : Adafruit_SSD1306) : Adafruit_SSD1306 :=
  let display := display.setTextColor Color.WHITE
  let display := display.print "R "
  let display := display.printNum i
  let display := display.print " = "
  if relayOn relayState i then
    let display := display.setTextColor2 Color.BLACK Color.WHITE
    display.println " 1 "
  else
    display.println " 0 "

/-- The loop `for (uint8_t i = 0; i < 4; ++i)` of `setRelayState`, entered with
the loop variable at `i`. -/
def forLoop (relayState i : Nat) (display : Adafruit_SSD1306) : Adafruit_SSD1306 :=
  if i < 4 then
    forLoop relayState ((i + 1) % 256) (loopBody relayState i display)
  else
    display
termination_by 4 - i
decreasing_by omega

/-- The member function `setRelayState`. -/
def setRelayState (self : RelayBoxDisplay) (relayState : Nat) : RelayBoxDisplay :=
  if !self.isReady then
    self
  else
    let display := self.display.clearDisplay
    let display := display.setCursor 0 0
    let display := display.setTextSize 2
    let display := forLoop relayState 0 display
    let display := display.display
    { self with display := display }

/-- The member function `begin`; `hwOk` is what the driver's `begin` returns. -/
def begin (self : RelayBoxDisplay) (relayState : Nat) (hwOk : Bool) : RelayBoxDisplay :=
  let r := self.display.begin SSD1306_SWITCHCAPVCC 0x3C hwOk
  let self : RelayBoxDisplay := { self with display := r.2 }
  let self : RelayBoxDisplay := if r.1 then { self with isReady := true } else self
  self.setRelayState relayState

/-- One call made on an instance from outside: `begin` together with the
outcome of the hardware initialisation in that call, or `setRelayState`. -/
inductive Call where
  | begin (relayState : Nat) (hwOk : Bool)
  | setRelayState (relayState : Nat)
  deriving DecidableEq, Repr

/-- Whether a call is a `begin` whose hardware initialisation succeeds. -/
def Call.initSucceeds : Call → Bool
  | Call.begin _ hwOk => hwOk
  | Call.setRelayState _ => false

/-- Perform one call. -/
def step (self : RelayBoxDisplay) : Call → RelayBoxDisplay
  | Call.begin relayState hwOk => self.begin relayState hwOk
  | Call.setRelayState relayState => self.setRelayState relayState

/-- Perform a finite sequence of calls, first to last. -/
def run (self : RelayBoxDisplay) : List Call → RelayBoxDisplay
  | [] => self
  | c :: cs => run (self.step c) cs

/-! ## Observations on the recorded operations -/

/-- The operations `setRelayState relayState` performs on the display of
`self`: those recorded after the call beyond the ones recorded before it. -/
def emitted (self : RelayBoxDisplay) (relayState : Nat) : List Op :=
  (self.setRelayState relayState).display.ops.drop self.display.ops.length

/-- The operations one pass of the loop body performs for index `i`. -/
def lineOps (relayState i : Nat) : List Op :=
  (loopBody relayState i ⟨[]⟩).ops

end RelayBoxDisplay

/-- The inverse colour call `setTextColor(BLACK, WHITE)`. -/
def inverseCall : Op := Op.setTextColor2 Color.BLACK Color.WHITE

/-- Whether an operation is a hardware initialisation attempt. -/
def Op.isBegin : Op → Bool
  | Op.begin _ _ => true
  | _ => false

/-- Whether an operation writes text. -/
def Op.isPrint : Op → Bool
  | Op.print _ => true
  | Op.printNum _ => true
  | Op.println _ => true
  | _ => false

/-- Whether an operation selects a text colour. -/
def Op.isColor : Op → Bool
  | Op.setTextColor _ => true
  | Op.setTextColor2 _ _ => true
  | _ => false

/-- Account for one operation in the text written so far: the finished lines
and the line being written.  `print` extends the current line, a number is
written in decimal, and `println` extends the current line and finishes it. -/
def addText (acc : List String × String) : Op → List String × String
  | Op.print s => (acc.1, acc.2 ++ s)
  | Op.printNum n => (acc.1, acc.2 ++ toString n)
  | Op.println s => (acc.1 ++ [acc.2 ++ s], "")
  | _ => acc

/-- The text a sequence of operations writes: the finished lines in order, and
what is left on the unfinished last line. -/
def textLines (ops : List Op) : List String × String :=
  ops.foldl addText ([], "")

/-- The spec's extraction of bit `i`: `(mask >> i) & 1`. -/
def specBit (m i : Nat) : Nat := (m >>> i) &&& 1

/-- The line the spec describes for index `i`: `R <i> =  <bit> `. -/
def specLine (m i : Nat) : String :=
  "R " ++ toString i ++ " = " ++ (" " ++ toString (specBit m i) ++ " ")

/-- The text colour of the surface: foreground and background, as the two
`setTextColor` overloads set them. -/
structure TextColor where
  c : Color
  bg : Color
  deriving DecidableEq, Repr

/-- The colour after `setTextColor(WHITE)`. -/
def TextColor.default : TextColor := ⟨Color.WHITE, Color.WHITE⟩

/-- The colour after `setTextColor(BLACK, WHITE)`. -/
def TextColor.inverse : TextColor := ⟨Color.BLACK, Color.WHITE⟩

/-- The current text colour after one operation. -/
def colorAfter (cur : TextColor) : Op → TextColor
  | Op.setTextColor c => ⟨c, c⟩
  | Op.setTextColor2 c bg => ⟨c, bg⟩
  | _ => cur

/-- Every text-writing operation of a sequence, in order, paired with the text
colour current when it runs; `cur` is the colour before the first operation. -/
def printedWith (cur : TextColor) : List Op → List (Op × TextColor)
  | [] => []
  | op :: rest =>
    if op.isPrint then (op, cur) :: printedWith cur rest
    else printedWith (colorAfter cur op) rest

/-- The prints the spec describes for line `i`, each with its colour. -/
def specPrints (m i : Nat) : List (Op × TextColor) :=
  [(Op.print "R ", TextColor.default), (Op.printNum i, TextColor.default),
   (Op.print " = ", TextColor.default),
   if specBit m i = 1 then (Op.println " 1 ", TextColor.inverse)
   else (Op.println " 0 ", TextColor.default)]

/-- The values a sequence of operations prints with `println`, in order. -/
def printedValues : List Op → List String
  | [] => []
  | Op.println v :: rest => v :: printedValues rest
  | _ :: rest => printedValues rest

/-- The value the loop prints for a relay: `" 1 "` when on, `" 0 "` when off. -/
def valueText (isOn : Bool) : String := if isOn then " 1 " else " 0 "

/-! ## Basic facts -/

open RelayBoxDisplay

theorem mask_eq_two_pow (i : Nat) (hi : i < 4) : mask i = 2 ^ i := by
  have h : i = 0 ∨ i = 1 ∨ i = 2 ∨ i = 3 := by omega
  rcases h with h | h | h | h <;> subst h <;> decide

theorem specBit_eq_toNat (m i : Nat) : specBit m i = (m.testBit i).toNat := by
  unfold specBit Nat.testBit
  rw [Nat.and_comm, Nat.one_and_eq_mod_two]
  have h : (m >>> i) % 2 = 0 ∨ (m >>> i) % 2 = 1 := by omega
  rcases h with h | h <;> simp [h]

theorem relayOn_eq_testBit (m i : Nat) (hi : i < 4) : relayOn m i = m.testBit i := by
  unfold relayOn
  rw [mask_eq_two_pow i hi, Nat.and_two_pow]
  cases h : m.testBit i
  · simp
  · simp

theorem relayOn_iff_specBit (m i : Nat) (hi : i < 4) :
    relayOn m i = true ↔ specBit m i = 1 := by
  rw [relayOn_eq_testBit m i hi, specBit_eq_toNat]
  cases m.testBit i <;> simp

theorem specBit_zero_or_one (m i : Nat) : specBit m i = 0 ∨ specBit m i = 1 := by
  rw [specBit_eq_toNat]
  cases m.testBit i <;> simp

theorem relayOn_low_nibble (m i : Nat) (hi : i < 4) :
    relayOn (m &&& 0x0F) i = relayOn m i := by
  rw [relayOn_eq_testBit _ i hi, relayOn_eq_testBit m i hi, Nat.testBit_and]
  have h : i = 0 ∨ i = 1 ∨ i = 2 ∨ i = 3 := by omega
  have h15 : Nat.testBit 0x0F i = true := by
    rcases h with h | h | h | h <;> subst h <;> decide
  simp [h15]

theorem forLoop_unroll (m : Nat) (d : Adafruit_SSD1306) :
    forLoop m 0 d = loopBody m 3 (loopBody m 2 (loopBody m 1 (loopBody m 0 d))) := by
  rw [forLoop]; simp
  rw [forLoop]; simp
  rw [forLoop]; simp
  rw [forLoop]; simp
  rw [forLoop]; simp

theorem lineOps_eq (m i : Nat) :
    lineOps m i =
      [Op.setTextColor Color.WHITE, Op.print "R ", Op.printNum i, Op.print " = "] ++
        (if relayOn m i then [inverseCall, Op.println " 1 "] else [Op.println " 0 "]) := by
  unfold lineOps loopBody inverseCall
  cases relayOn m i <;>
    simp [Adafruit_SSD1306.call, Adafruit_SSD1306.setTextColor, Adafruit_SSD1306.setTextColor2,
      Adafruit_SSD1306.print, Adafruit_SSD1306.printNum, Adafruit_SSD1306.println]

theorem loopBody_ops (m i : Nat) (d : Adafruit_SSD1306) :
    (loopBody m i d).ops = d.ops ++ lineOps m i := by
  rw [lineOps_eq]
  unfold loopBody inverseCall
  cases relayOn m i <;>
    simp [Adafruit_SSD1306.call, Adafruit_SSD1306.setTextColor, Adafruit_SSD1306.setTextColor2,
      Adafruit_SSD1306.print, Adafruit_SSD1306.printNum, Adafruit_SSD1306.println]

/-- The frame: what `setRelayState` performs when ready, line by line. -/
theorem setRelayState_ready_ops (self : RelayBoxDisplay) (m : Nat) (h : self.isReady = true) :
    (self.setRelayState m).display.ops =
      self.display.ops ++
        ([Op.clearDisplay, Op.setCursor 0 0, Op.setTextSize 2] ++ lineOps m 0 ++ lineOps m 1 ++
          lineOps m 2 ++ lineOps m 3 ++ [Op.display]) := by
  unfold setRelayState
  simp only [h, Bool.not_true, Bool.false_eq_true, if_false, forLoop_unroll]
  simp [Adafruit_SSD1306.display, Adafruit_SSD1306.call, loopBody_ops,
    Adafruit_SSD1306.clearDisplay, Adafruit_SSD1306.setCursor, Adafruit_SSD1306.setTextSize]

theorem setRelayState_isReady (self : RelayBoxDisplay) (m : Nat) :
    (self.setRelayState m).isReady = self.isReady := by
  unfold setRelayState
  cases h : self.isReady <;> simp [h]

theorem setRelayState_unready (self : RelayBoxDisplay) (m : Nat) (h : self.isReady = false) :
    self.setRelayState m = self := by
  unfold setRelayState
  simp [h]

theorem emitted_ready (self : RelayBoxDisplay) (m : Nat) (h : self.isReady = true) :
    emitted self m =
      [Op.clearDisplay, Op.setCursor 0 0, Op.setTextSize 2] ++ lineOps m 0 ++ lineOps m 1 ++
        lineOps m 2 ++ lineOps m 3 ++ [Op.display] := by
  unfold emitted
  rw [setRelayState_ready_ops self m h, List.drop_left]

theorem emitted_unready (self : RelayBoxDisplay) (m : Nat) (h : self.isReady = false) :
    emitted self m = [] := by
  unfold emitted
  rw [setRelayState_unready self m h]
  simp

theorem setRelayState_ops (self : RelayBoxDisplay) (m : Nat) :
    (self.setRelayState m).display.ops = self.display.ops ++ emitted self m := by
  cases h : self.isReady
  · rw [emitted_unready self m h, setRelayState_unready self m h]; simp
  · rw [emitted_ready self m h, setRelayState_ready_ops self m h]

theorem relayOn_cases (m i : Nat) (hi : i < 4) :
    (relayOn m i = true ∧ specBit m i = 1) ∨ (relayOn m i = false ∧ specBit m i = 0) := by
  rcases specBit_zero_or_one m i with h | h
  · right
    refine ⟨?_, h⟩
    cases hr : relayOn m i
    · rfl
    · rw [(relayOn_iff_specBit m i hi).mp hr] at h
      exact absurd h (by decide)
  · exact Or.inl ⟨(relayOn_iff_specBit m i hi).mpr h, h⟩

/-! ## The rendered text -/

/-- C1: on a ready instance, for every mask `m` (every natural number, so every
value 0..255), the text `setRelayState m` writes is exactly four finished lines
and nothing after them, for the indices 0, 1, 2, 3 in this order, and line `i`
is `"R "`, the decimal index, `" = "` and `" b "` with `b = (m >> i) & 1`. -/
theorem setRelayState_ready_textLines (self : RelayBoxDisplay) (m : Nat)
    (h : self.isReady = true) :
    textLines (emitted self m) =
      ([specLine m 0, specLine m 1, specLine m 2, specLine m 3], "") := by
  rw [emitted_ready self m h, lineOps_eq, lineOps_eq, lineOps_eq, lineOps_eq]
  unfold specLine
  rcases relayOn_cases m 0 (by decide) with ⟨r0, b0⟩ | ⟨r0, b0⟩ <;>
  rcases relayOn_cases m 1 (by decide) with ⟨r1, b1⟩ | ⟨r1, b1⟩ <;>
  rcases relayOn_cases m 2 (by decide) with ⟨r2, b2⟩ | ⟨r2, b2⟩ <;>
  rcases relayOn_cases m 3 (by decide) with ⟨r3, b3⟩ | ⟨r3, b3⟩ <;>
  rw [r0, r1, r2, r3, b0, b1, b2, b3] <;>
  decide

/-- Witness of C1: a ready instance and the mask 0b0101. -/
theorem setRelayState_ready_textLines_witness :
    (⟨⟨[]⟩, true⟩ : RelayBoxDisplay).isReady = true ∧
      textLines (emitted ⟨⟨[]⟩, true⟩ 5) =
        (["R 0 =  1 ", "R 1 =  0 ", "R 2 =  1 ", "R 3 =  0 "], "") :=
  ⟨rfl, setRelayState_ready_textLines ⟨⟨[]⟩, true⟩ 5 rfl⟩

/-- C2: on an instance whose `isReady` is false, `setRelayState m` performs no
operation on the display at all and returns the instance unchanged, so
`isReady` is still false; on a fresh instance, on which `begin` was never
called, the recorded operation sequence after the call is empty. -/
theorem setRelayState_unready_noop (self : RelayBoxDisplay) (m : Nat)
    (h : self.isReady = false) :
    emitted self m = [] ∧ self.setRelayState m = self ∧
      (self.setRelayState m).isReady = false ∧
      (fresh.setRelayState m).display.ops = [] ∧ (fresh.setRelayState m).isReady = false := by
  refine ⟨emitted_unready self m h, setRelayState_unready self m h, ?_, ?_, ?_⟩
  · rw [setRelayState_isReady, h]
  · rw [setRelayState_unready fresh m rfl]; rfl
  · rw [setRelayState_unready fresh m rfl]; rfl

/-- Witness of C2: an unready instance whose display already has one recorded
operation, and the mask 0b1111. -/
theorem setRelayState_unready_noop_witness :
    (⟨⟨[Op.begin 2 0x3C]⟩, false⟩ : RelayBoxDisplay).isReady = false ∧
      emitted ⟨⟨[Op.begin 2 0x3C]⟩, false⟩ 15 = [] ∧
      setRelayState ⟨⟨[Op.begin 2 0x3C]⟩, false⟩ 15 = ⟨⟨[Op.begin 2 0x3C]⟩, false⟩ :=
  ⟨rfl, (setRelayState_unready_noop ⟨⟨[Op.begin 2 0x3C]⟩, false⟩ 15 rfl).1,
    (setRelayState_unready_noop ⟨⟨[Op.begin 2 0x3C]⟩, false⟩ 15 rfl).2.1⟩

/-- C3: the operations of a ready `setRelayState m` are the three opening
operations, the operations of lines 0, 1, 2, 3 and the closing `display()`.
For every index `i` in 0..3: if bit `i` of `m` is 1, the operations of line `i`
end with the inverse colour call `setTextColor(BLACK, WHITE)` immediately
followed by the print of `" 1 "`, which is the only `println` of the line; if
bit `i` is 0, they end with the print of `" 0 "`, the only `println` of the
line, and the inverse colour call is not among them.  For `m = 0b0101` the
lines with an inverse call are 0 and 2 only; for `m = 0b0000` there is none. -/
theorem lineOps_color_encoding (m i : Nat) (hi : i < 4) :
    (∀ self : RelayBoxDisplay, self.isReady = true →
      emitted self m =
        [Op.clearDisplay, Op.setCursor 0 0, Op.setTextSize 2] ++ lineOps m 0 ++ lineOps m 1 ++
          lineOps m 2 ++ lineOps m 3 ++ [Op.display]) ∧
    (specBit m i = 1 →
      ∃ pre, lineOps m i = pre ++ [inverseCall, Op.println " 1 "] ∧
        ∀ s, Op.println s ∉ pre) ∧
    (specBit m i = 0 →
      (∃ pre, lineOps m i = pre ++ [Op.println " 0 "] ∧ ∀ s, Op.println s ∉ pre) ∧
        inverseCall ∉ lineOps m i) ∧
    [0, 1, 2, 3].filter (fun j => decide (inverseCall ∈ lineOps 0b0101 j)) = [0, 2] ∧
    [0, 1, 2, 3].filter (fun j => decide (inverseCall ∈ lineOps 0b0000 j)) = [] := by
  refine ⟨fun self h => emitted_ready self m h, ?_, ?_, ?_, ?_⟩
  · intro hb
    have hr : relayOn m i = true := (relayOn_iff_specBit m i hi).mpr hb
    refine ⟨[Op.setTextColor Color.WHITE, Op.print "R ", Op.printNum i, Op.print " = "], ?_, ?_⟩
    · rw [lineOps_eq, hr]; rfl
    · intro s hs
      simp at hs
  · intro hb
    have hr : relayOn m i = false := by
      cases hc : relayOn m i
      · rfl
      · rw [(relayOn_iff_specBit m i hi).mp hc] at hb
        exact absurd hb (by decide)
    refine ⟨⟨[Op.setTextColor Color.WHITE, Op.print "R ", Op.printNum i, Op.print " = "],
      ?_, ?_⟩, ?_⟩
    · rw [lineOps_eq, hr]; rfl
    · intro s hs
      simp at hs
    · rw [lineOps_eq, hr]
      simp [inverseCall]
  · have e0 : relayOn 0b0101 0 = true := by decide
    have e1 : relayOn 0b0101 1 = false := by decide
    have e2 : relayOn 0b0101 2 = true := by decide
    have e3 : relayOn 0b0101 3 = false := by decide
    rw [List.filter, List.filter, List.filter, List.filter]
    simp only [lineOps_eq, e0, e1, e2, e3]
    decide
  · have e0 : relayOn 0b0000 0 = false := by decide
    have e1 : relayOn 0b0000 1 = false := by decide
    have e2 : relayOn 0b0000 2 = false := by decide
    have e3 : relayOn 0b0000 3 = false := by decide
    rw [List.filter, List.filter, List.filter, List.filter]
    simp only [lineOps_eq, e0, e1, e2, e3]
    decide

/-- Witness of C3: the mask 0b0101 at index 2, whose bit is 1. -/
theorem lineOps_color_encoding_witness :
    (2 : Nat) < 4 ∧ specBit 0b0101 2 = 1 ∧
      ∃ pre, lineOps 0b0101 2 = pre ++ [inverseCall, Op.println " 1 "] ∧
        ∀ s, Op.println s ∉ pre :=
  ⟨by decide, by decide, (lineOps_color_encoding 0b0101 2 (by decide)).2.1 (by decide)⟩

theorem loopBody_low_nibble (m i : Nat) (hi : i < 4) (d : Adafruit_SSD1306) :
    loopBody (m &&& 0x0F) i d = loopBody m i d := by
  unfold loopBody
  rw [relayOn_low_nibble m i hi]

theorem forLoop_low_nibble (m : Nat) (d : Adafruit_SSD1306) :
    forLoop (m &&& 0x0F) 0 d = forLoop m 0 d := by
  rw [forLoop_unroll, forLoop_unroll, loopBody_low_nibble m 0 (by decide),
    loopBody_low_nibble m 1 (by decide), loopBody_low_nibble m 2 (by decide),
    loopBody_low_nibble m 3 (by decide)]

theorem setRelayState_low_nibble (self : RelayBoxDisplay) (m : Nat) :
    self.setRelayState (m &&& 0x0F) = self.setRelayState m := by
  unfold setRelayState
  simp only [forLoop_low_nibble]

/-- C4: bits 4-7 of the mask never influence the output.  For every mask `m`
and every instance, ready or not, `setRelayState m` gives the same instance,
and performs the same sequence of operations, as `setRelayState (m & 0x0F)`;
in particular the masks 0x1F and 0x0F render identically. -/
theorem setRelayState_ignores_high_bits (self : RelayBoxDisplay) (m : Nat) :
    self.setRelayState m = self.setRelayState (m &&& 0x0F) ∧
      emitted self m = emitted self (m &&& 0x0F) ∧
      self.setRelayState 0x1F = self.setRelayState 0x0F ∧
      emitted self 0x1F = emitted self 0x0F := by
  have h1F : self.setRelayState (0x1F &&& 0x0F) = self.setRelayState 0x1F :=
    setRelayState_low_nibble self 0x1F
  have e : (0x1F &&& 0x0F : Nat) = 0x0F := by decide
  rw [e] at h1F
  refine ⟨(setRelayState_low_nibble self m).symm, ?_, h1F.symm, ?_⟩
  · unfold emitted
    rw [setRelayState_low_nibble]
  · unfold emitted
    rw [h1F]

/-! ## The ready flag -/

theorem begin_eq (self : RelayBoxDisplay) (m : Nat) (hwOk : Bool) :
    self.begin m hwOk =
      setRelayState ⟨⟨self.display.ops ++ [Op.begin SSD1306_SWITCHCAPVCC 0x3C]⟩,
        hwOk || self.isReady⟩ m := by
  unfold RelayBoxDisplay.begin Adafruit_SSD1306.begin Adafruit_SSD1306.call
  cases hwOk <;> simp

theorem begin_isReady (self : RelayBoxDisplay) (m : Nat) (hwOk : Bool) :
    (self.begin m hwOk).isReady = (hwOk || self.isReady) := by
  rw [begin_eq, setRelayState_isReady]

theorem step_isReady (self : RelayBoxDisplay) (c : Call) :
    (self.step c).isReady = (c.initSucceeds || self.isReady) := by
  cases c with
  | begin m hwOk => exact begin_isReady self m hwOk
  | setRelayState m =>
    show (self.setRelayState m).isReady = (false || self.isReady)
    rw [setRelayState_isReady, Bool.false_or]

theorem run_isReady (self : RelayBoxDisplay) (calls : List Call) :
    (run self calls).isReady = (self.isReady || calls.any Call.initSucceeds) := by
  induction calls generalizing self with
  | nil => simp [run]
  | cons c cs ih =>
    rw [run, ih, step_isReady, List.any_cons]
    cases c.initSucceeds <;> cases self.isReady <;> simp

/-- Counterexample to C5 as stated: on a fresh instance a `begin` whose hardware
initialisation fails leaves `isReady` false, and a later `begin` whose
initialisation succeeds makes it true. -/
theorem unready_not_terminal :
    fresh.isReady = false ∧ (fresh.begin 0 false).isReady = false ∧
      (run (fresh.begin 0 false) [Call.begin 0 true]).isReady = true := by
  refine ⟨rfl, ?_, ?_⟩
  · rw [begin_isReady]; rfl
  · rw [run_isReady, begin_isReady]; rfl

/-- C5, amended: after a `begin` whose hardware initialisation failed on an
instance whose `isReady` was false, `isReady` is false, and after a subsequent
finite sequence of `begin` and `setRelayState` calls it is false exactly when
no `begin` of that sequence had its hardware initialisation succeed; so
`setRelayState` calls and failing `begin` calls never recover it. -/
theorem unready_until_successful_begin (self : RelayBoxDisplay) (m : Nat) (calls : List Call)
    (h : self.isReady = false) :
    (self.begin m false).isReady = false ∧
      ((run (self.begin m false) calls).isReady = false ↔
        ∀ c ∈ calls, c.initSucceeds = false) := by
  have hb : (self.begin m false).isReady = false := by
    rw [begin_isReady, h]; rfl
  refine ⟨hb, ?_⟩
  rw [run_isReady, hb, Bool.false_or]
  simp

/-- Witness of C5, amended: a fresh instance, then a failing `begin`, a
`setRelayState` and another failing `begin`. -/
theorem unready_until_successful_begin_witness :
    fresh.isReady = false ∧
      (run (fresh.begin 0b0101 false)
        [Call.setRelayState 0b1111, Call.begin 0 false]).isReady = false :=
  ⟨rfl, (unready_until_successful_begin fresh 0b0101
    [Call.setRelayState 0b1111, Call.begin 0 false] rfl).2.mpr (by decide)⟩

/-- C6: for every mask `m` and either hardware outcome, `begin m` on a fresh
instance performs the hardware initialisation attempt and then is one
`setRelayState m` on the instance so obtained, and the attempt is recorded
exactly once.  When the initialisation succeeds, the operations after the
attempt are exactly those `setRelayState m` performs on a ready instance and
`isReady` is true.  When it fails, the attempt is the only operation,
`isReady` stays false, and a following `setRelayState 0b1111` performs no
operation. -/
theorem begin_fresh (m : Nat) :
    (∀ hwOk : Bool, fresh.begin m hwOk =
      setRelayState ⟨⟨[Op.begin SSD1306_SWITCHCAPVCC 0x3C]⟩, hwOk⟩ m) ∧
    (∀ hwOk : Bool, ((fresh.begin m hwOk).display.ops.filter Op.isBegin).length = 1) ∧
    (fresh.begin m true).display.ops =
      Op.begin SSD1306_SWITCHCAPVCC 0x3C :: emitted ⟨⟨[]⟩, true⟩ m ∧
    (fresh.begin m true).isReady = true ∧
    (fresh.begin m false).display.ops = [Op.begin SSD1306_SWITCHCAPVCC 0x3C] ∧
    (fresh.begin m false).isReady = false ∧
    emitted (fresh.begin m false) 0b1111 = [] ∧
    (fresh.begin m false).setRelayState 0b1111 = fresh.begin m false := by
  have hT : (fresh.begin m true).display.ops =
      Op.begin SSD1306_SWITCHCAPVCC 0x3C :: emitted ⟨⟨[]⟩, true⟩ m := by
    rw [begin_eq, setRelayState_ready_ops _ m rfl, emitted_ready _ m rfl]
    rfl
  have hF : fresh.begin m false = ⟨⟨[Op.begin SSD1306_SWITCHCAPVCC 0x3C]⟩, false⟩ := by
    rw [begin_eq, setRelayState_unready _ m rfl]
    rfl
  refine ⟨?_, ?_, hT, ?_, ?_, ?_, ?_, ?_⟩
  · intro hwOk
    rw [begin_eq]
    cases hwOk <;> rfl
  · intro hwOk
    cases hwOk
    · rw [hF]; decide
    · rw [hT, emitted_ready _ m rfl, lineOps_eq, lineOps_eq, lineOps_eq, lineOps_eq]
      cases relayOn m 0 <;> cases relayOn m 1 <;> cases relayOn m 2 <;> cases relayOn m 3 <;>
        decide
  · rw [begin_isReady]; rfl
  · rw [hF]
  · rw [hF]
  · exact emitted_unready _ _ (by rw [hF])
  · exact setRelayState_unready _ _ (by rw [hF])

/-- C7: for every mask `m` and every instance, ready or not, two successive
calls `setRelayState m` perform the same sequence of operations, element for
element: the display holds the earlier operations followed by that sequence
twice.  `setRelayState` never changes `isReady`. -/
theorem setRelayState_twice (self : RelayBoxDisplay) (m : Nat) :
    emitted (self.setRelayState m) m = emitted self m ∧
      (self.setRelayState m).display.ops = self.display.ops ++ emitted self m ∧
      ((self.setRelayState m).setRelayState m).display.ops =
        self.display.ops ++ emitted self m ++ emitted self m ∧
      (self.setRelayState m).isReady = self.isReady ∧
      ((self.setRelayState m).setRelayState m).isReady = self.isReady := by
  have he : emitted (self.setRelayState m) m = emitted self m := by
    cases h : self.isReady
    · rw [setRelayState_unready self m h]
    · rw [emitted_ready self m h,
        emitted_ready _ m ((setRelayState_isReady self m).trans h)]
  refine ⟨he, setRelayState_ops self m, ?_, setRelayState_isReady self m, ?_⟩
  · rw [setRelayState_ops (self.setRelayState m) m, setRelayState_ops self m, he]
  · rw [setRelayState_isReady, setRelayState_isReady]

/-! ## The shape of the frame -/

theorem index_between (hdr body : List Op) (last : Op)
    (hh : ∀ op ∈ hdr, (op.isColor || op.isPrint) = false)
    (hl : (last.isColor || last.isPrint) = false) (k : Nat) (op : Op)
    (hk : (hdr ++ body ++ [last])[k]? = some op) (hop : (op.isColor || op.isPrint) = true) :
    hdr.length ≤ k ∧ k + 1 < (hdr ++ body ++ [last]).length := by
  have hlen : k < (hdr ++ body ++ [last]).length := (List.getElem?_eq_some.mp hk).1
  constructor
  · by_contra hlt
    rw [List.append_assoc, List.getElem?_append_left (Nat.lt_of_not_le hlt)] at hk
    rw [hh op (List.getElem?_mem hk)] at hop
    exact Bool.false_ne_true hop
  · by_contra hge
    have hkl : k = (hdr ++ body).length := by
      simp only [List.length_append, List.length_singleton] at hlen hge ⊢
      omega
    rw [hkl, List.getElem?_concat_length] at hk
    rw [← Option.some.inj hk, hl] at hop
    exact Bool.false_ne_true hop

/-- C8: on a ready instance, for every mask `m`, the operations of
`setRelayState m` begin with `clearDisplay`, `setCursor(0, 0)`,
`setTextSize(2)` and end with `display()`; `clearDisplay` occurs exactly once
and `display()` exactly once; and every colour or print operation stands at a
position after the `setTextSize(2)` at position 2 and before the final
`display()`. -/
theorem setRelayState_frame_shape (self : RelayBoxDisplay) (m : Nat)
    (h : self.isReady = true) :
    (emitted self m).take 3 = [Op.clearDisplay, Op.setCursor 0 0, Op.setTextSize 2] ∧
      (emitted self m).getLast? = some Op.display ∧
      (emitted self m).count Op.clearDisplay = 1 ∧
      (emitted self m).count Op.display = 1 ∧
      ∀ k op, (emitted self m)[k]? = some op → (op.isColor || op.isPrint) = true →
        3 ≤ k ∧ k + 1 < (emitted self m).length := by
  have hidx : ∀ k op, (emitted self m)[k]? = some op → (op.isColor || op.isPrint) = true →
      3 ≤ k ∧ k + 1 < (emitted self m).length := by
    intro k op hk hop
    rw [emitted_ready self m h] at hk ⊢
    simp only [List.append_assoc] at hk ⊢
    rw [← List.append_assoc, ← List.append_assoc, ← List.append_assoc, ← List.append_assoc]
      at hk ⊢
    simp only [List.append_assoc [Op.clearDisplay, Op.setCursor 0 0, Op.setTextSize 2]] at hk ⊢
    exact index_between [Op.clearDisplay, Op.setCursor 0 0, Op.setTextSize 2] _ Op.display
      (by decide) (by decide) k op hk hop
  refine ⟨?_, ?_, ?_, ?_, hidx⟩ <;>
    rw [emitted_ready self m h, lineOps_eq, lineOps_eq, lineOps_eq, lineOps_eq] <;>
    cases relayOn m 0 <;> cases relayOn m 1 <;> cases relayOn m 2 <;> cases relayOn m 3 <;>
    decide

/-- Witness of C8: a ready instance and the mask 0b0101; the frame has 24
operations. -/
theorem setRelayState_frame_shape_witness :
    (⟨⟨[]⟩, true⟩ : RelayBoxDisplay).isReady = true ∧
      (emitted ⟨⟨[]⟩, true⟩ 0b0101).take 3 =
        [Op.clearDisplay, Op.setCursor 0 0, Op.setTextSize 2] ∧
      (emitted ⟨⟨[]⟩, true⟩ 0b0101).getLast? = some Op.display ∧
      (emitted ⟨⟨[]⟩, true⟩ 0b0101).count Op.clearDisplay = 1 ∧
      (emitted ⟨⟨[]⟩, true⟩ 0b0101).count Op.display = 1 :=
  ⟨rfl, (setRelayState_frame_shape ⟨⟨[]⟩, true⟩ 0b0101 rfl).1,
    (setRelayState_frame_shape ⟨⟨[]⟩, true⟩ 0b0101 rfl).2.1,
    (setRelayState_frame_shape ⟨⟨[]⟩, true⟩ 0b0101 rfl).2.2.1,
    (setRelayState_frame_shape ⟨⟨[]⟩, true⟩ 0b0101 rfl).2.2.2.1⟩

/-! ## The colour of each print -/

/-- C9: on a ready instance, for every mask `m` and every text colour `cur`
the surface had before the call, the prints of `setRelayState m`, each with
the colour current when it runs, are for every line `i` = 0, 1, 2, 3 in order:
`"R "`, the index and `" = "` in the default colour, then `" 1 "` in the
inverse colour when bit `i` is 1 and `" 0 "` in the default colour when it is
0.  For `m = 0b0001` line 1, which follows a line whose bit was 1, is printed
in the default colour throughout. -/
theorem setRelayState_print_colors (self : RelayBoxDisplay) (m : Nat) (cur : TextColor)
    (h : self.isReady = true) :
    printedWith cur (emitted self m) =
        specPrints m 0 ++ specPrints m 1 ++ specPrints m 2 ++ specPrints m 3 ∧
      printedWith cur (emitted self 0b0001) =
        [(Op.print "R ", TextColor.default), (Op.printNum 0, TextColor.default),
         (Op.print " = ", TextColor.default), (Op.println " 1 ", TextColor.inverse),
         (Op.print "R ", TextColor.default), (Op.printNum 1, TextColor.default),
         (Op.print " = ", TextColor.default), (Op.println " 0 ", TextColor.default),
         (Op.print "R ", TextColor.default), (Op.printNum 2, TextColor.default),
         (Op.print " = ", TextColor.default), (Op.println " 0 ", TextColor.default),
         (Op.print "R ", TextColor.default), (Op.printNum 3, TextColor.default),
         (Op.print " = ", TextColor.default), (Op.println " 0 ", TextColor.default)] := by
  have hgen : ∀ n : Nat, printedWith cur (emitted self n) =
      specPrints n 0 ++ specPrints n 1 ++ specPrints n 2 ++ specPrints n 3 := by
    intro n
    rw [emitted_ready self n h, lineOps_eq, lineOps_eq, lineOps_eq, lineOps_eq]
    unfold specPrints
    obtain ⟨c, bg⟩ := cur
    rcases relayOn_cases n 0 (by decide) with ⟨r0, b0⟩ | ⟨r0, b0⟩ <;>
    rcases relayOn_cases n 1 (by decide) with ⟨r1, b1⟩ | ⟨r1, b1⟩ <;>
    rcases relayOn_cases n 2 (by decide) with ⟨r2, b2⟩ | ⟨r2, b2⟩ <;>
    rcases relayOn_cases n 3 (by decide) with ⟨r3, b3⟩ | ⟨r3, b3⟩ <;>
    rw [r0, r1, r2, r3, b0, b1, b2, b3] <;>
    cases c <;> cases bg <;> decide
  refine ⟨hgen m, ?_⟩
  rw [hgen 0b0001]
  decide

/-- Witness of C9: a ready instance, the mask 0b0101 and a surface whose
colour before the call is the inverse one. -/
theorem setRelayState_print_colors_witness :
    (⟨⟨[]⟩, true⟩ : RelayBoxDisplay).isReady = true ∧
      printedWith TextColor.inverse (emitted ⟨⟨[]⟩, true⟩ 0b0101) =
        specPrints 0b0101 0 ++ specPrints 0b0101 1 ++ specPrints 0b0101 2 ++
          specPrints 0b0101 3 :=
  ⟨rfl, (setRelayState_print_colors ⟨⟨[]⟩, true⟩ 0b0101 TextColor.inverse rfl).1⟩

/-! ## The bit test -/

/-- C10: for every `relayState` (every natural number, so every 8-bit value)
and every `i` in 0..3, the local `mask`, which is `0x01 << i` truncated to
eight bits, equals `2^i` and equals the shift without truncation, and
`relayState & mask` is non-zero, which is the condition the code tests, if
and only if `(relayState >> i) & 1` equals 1. -/
theorem bit_test_agrees (relayState i : Nat) (hi : i < 4) :
    mask i = 2 ^ i ∧ mask i = 0x01 <<< i ∧
      (relayState &&& mask i ≠ 0 ↔ specBit relayState i = 1) ∧
      (relayOn relayState i = true ↔ specBit relayState i = 1) := by
  refine ⟨mask_eq_two_pow i hi, ?_, ?_, relayOn_iff_specBit relayState i hi⟩
  · rw [mask_eq_two_pow i hi, Nat.one_shiftLeft]
  · rw [← relayOn_iff_specBit relayState i hi]
    unfold relayOn
    simp

/-- Witness of C10: the value 0b0101 and the index 2. -/
theorem bit_test_agrees_witness :
    (2 : Nat) < 4 ∧ mask 2 = 2 ^ 2 ∧ mask 2 = 0x01 <<< 2 ∧
      (0b0101 &&& mask 2 ≠ 0 ↔ specBit 0b0101 2 = 1) ∧
      (relayOn 0b0101 2 = true ↔ specBit 0b0101 2 = 1) :=
  ⟨by decide, bit_test_agrees 0b0101 2 (by decide)⟩

/-! ## The frame determines the relay states -/

theorem printedValues_emitted (self : RelayBoxDisplay) (m : Nat) (h : self.isReady = true) :
    printedValues (emitted self m) =
      [valueText (relayOn m 0), valueText (relayOn m 1), valueText (relayOn m 2),
        valueText (relayOn m 3)] := by
  rw [emitted_ready self m h, lineOps_eq, lineOps_eq, lineOps_eq, lineOps_eq]
  cases relayOn m 0 <;> cases relayOn m 1 <;> cases relayOn m 2 <;> cases relayOn m 3 <;>
    decide

theorem valueText_injective (a b : Bool) (h : valueText a = valueText b) : a = b := by
  cases a <;> cases b <;> first | rfl | exact absurd h (by decide)

theorem low_nibble_eq_of_relayOn (m1 m2 : Nat) (h : ∀ i, i < 4 → relayOn m1 i = relayOn m2 i) :
    m1 &&& 0x0F = m2 &&& 0x0F := by
  apply Nat.eq_of_testBit_eq
  intro i
  rw [Nat.testBit_and, Nat.testBit_and]
  by_cases hi : i < 4
  · have e := h i hi
    rw [relayOn_eq_testBit m1 i hi, relayOn_eq_testBit m2 i hi] at e
    rw [e]
  · have h15 : Nat.testBit 0x0F i = false :=
      Nat.testBit_lt_two_pow (Nat.lt_of_lt_of_le (by decide : 0x0F < 2 ^ 4)
        (Nat.pow_le_pow_right (by decide) (Nat.le_of_not_lt hi)))
    rw [h15, Bool.and_false, Bool.and_false]

theorem emitted_eq_iff (self : RelayBoxDisplay) (m1 m2 : Nat) (h : self.isReady = true) :
    emitted self m1 = emitted self m2 ↔ m1 &&& 0x0F = m2 &&& 0x0F := by
  constructor
  · intro he
    have hv := congrArg printedValues he
    rw [printedValues_emitted self m1 h, printedValues_emitted self m2 h] at hv
    simp only [List.cons.injEq, and_true] at hv
    obtain ⟨h0, h1, h2, h3⟩ := hv
    apply low_nibble_eq_of_relayOn
    intro i hi
    have hc : i = 0 ∨ i = 1 ∨ i = 2 ∨ i = 3 := by omega
    rcases hc with hc | hc | hc | hc <;> subst hc
    · exact valueText_injective _ _ h0
    · exact valueText_injective _ _ h1
    · exact valueText_injective _ _ h2
    · exact valueText_injective _ _ h3
  · intro hm
    unfold emitted
    rw [← setRelayState_low_nibble self m1, ← setRelayState_low_nibble self m2, hm]

/-- C11: on a ready instance, for all masks `m1` and `m2` (all natural numbers,
so all values 0..255), `setRelayState m1` and `setRelayState m2` perform equal
sequences of operations if and only if `m1 & 0x0F = m2 & 0x0F`; so the 16
low-nibble values 0..15 give 16 pairwise distinct frames. -/
theorem frame_determines_relays (self : RelayBoxDisplay) (m1 m2 : Nat)
    (h : self.isReady = true) :
    (emitted self m1 = emitted self m2 ↔ m1 &&& 0x0F = m2 &&& 0x0F) ∧
      (∀ a b : Nat, a < 16 → b < 16 → a ≠ b → emitted self a ≠ emitted self b) ∧
      ((List.range 16).map (emitted self)).Nodup := by
  have hinj : ∀ a b : Nat, a < 16 → b < 16 → emitted self a = emitted self b → a = b := by
    intro a b ha hb he
    have hm := (emitted_eq_iff self a b h).mp he
    have ea : a &&& 0x0F = a := Nat.and_pow_two_sub_one_of_lt_two_pow (n := 4) ha
    have eb : b &&& 0x0F = b := Nat.and_pow_two_sub_one_of_lt_two_pow (n := 4) hb
    rw [ea, eb] at hm
    exact hm
  refine ⟨emitted_eq_iff self m1 m2 h, fun a b ha hb hne he => hne (hinj a b ha hb he), ?_⟩
  apply List.Nodup.map_on _ (List.nodup_range 16)
  intro a ha b hb he
  exact hinj a b (List.mem_range.mp ha) (List.mem_range.mp hb) he

/-- Witness of C11: a ready instance; the masks 0x1F and 0x0F share the low
nibble and give equal frames, the masks 0b0101 and 0b0100 give different ones. -/
theorem frame_determines_relays_witness :
    (⟨⟨[]⟩, true⟩ : RelayBoxDisplay).isReady = true ∧
      emitted ⟨⟨[]⟩, true⟩ 0x1F = emitted ⟨⟨[]⟩, true⟩ 0x0F ∧
      emitted ⟨⟨[]⟩, true⟩ 0b0101 ≠ emitted ⟨⟨[]⟩, true⟩ 0b0100 :=
  ⟨rfl, (frame_determines_relays ⟨⟨[]⟩, true⟩ 0x1F 0x0F rfl).1.mpr (by decide),
    (frame_determines_relays ⟨⟨[]⟩, true⟩ 0 0 rfl).2.1 0b0101 0b0100 (by decide) (by decide)
      (by decide)⟩

/-! ## The reachable values of the ready flag -/

theorem run_append (self : RelayBoxDisplay) (calls more : List Call) :
    run self (calls ++ more) = run (run self calls) more := by
  induction calls generalizing self with
  | nil => rfl
  | cons c cs ih => exact ih (self.step c)

theorem any_initSucceeds_iff (calls : List Call) :
    calls.any Call.initSucceeds = true ↔ ∃ m, Call.begin m true ∈ calls := by
  rw [List.any_eq_true]
  constructor
  · rintro ⟨c, hc, hs⟩
    cases c with
    | begin m hwOk =>
      have e : hwOk = true := hs
      subst e
      exact ⟨m, hc⟩
    | setRelayState m => exact absurd (show false = true from hs) Bool.false_ne_true
  · rintro ⟨m, hm⟩
    exact ⟨Call.begin m true, hm, rfl⟩

/-- C12: after any finite sequence of `begin` and `setRelayState` calls on a
fresh instance, with arbitrary hardware-initialisation outcomes, `isReady` is
true if and only if some `begin` call of the sequence had its hardware
initialisation succeed.  Consequently, once `isReady` is true it is still true
after any further calls, and in particular after a further `begin` whose
initialisation fails. -/
theorem isReady_iff_some_begin_succeeded (calls more : List Call) (m : Nat) :
    ((run fresh calls).isReady = true ↔ ∃ n, Call.begin n true ∈ calls) ∧
      ((run fresh calls).isReady = true →
        (run fresh (calls ++ more)).isReady = true ∧
          ((run fresh calls).begin m false).isReady = true ∧
          (run fresh (calls ++ [Call.begin m false])).isReady = true) := by
  have hstay : ∀ extra : List Call, (run fresh calls).isReady = true →
      (run fresh (calls ++ extra)).isReady = true := by
    intro extra hr
    rw [run_append, run_isReady, hr, Bool.true_or]
  refine ⟨?_, fun hr => ⟨hstay more hr, ?_, hstay _ hr⟩⟩
  · rw [run_isReady, ← any_initSucceeds_iff]
    show (false || calls.any Call.initSucceeds) = true ↔ _
    rw [Bool.false_or]
  · rw [begin_isReady, hr]
    rfl

/-- Witness of C12: a failing `begin`, a `setRelayState`, a succeeding `begin`,
and then a failing `begin` again. -/
theorem isReady_iff_some_begin_succeeded_witness :
    (run fresh [Call.begin 0 false, Call.setRelayState 0b0101, Call.begin 3 true]).isReady
        = true ∧
      (run fresh ([Call.begin 0 false, Call.setRelayState 0b0101, Call.begin 3 true] ++
        [Call.setRelayState 0, Call.begin 0b1111 false])).isReady = true ∧
      ((run fresh [Call.begin 0 false, Call.setRelayState 0b0101, Call.begin 3 true]).begin
        7 false).isReady = true :=
  have hr : (run fresh [Call.begin 0 false, Call.setRelayState 0b0101,
      Call.begin 3 true]).isReady = true :=
    (isReady_iff_some_begin_succeeded
      [Call.begin 0 false, Call.setRelayState 0b0101, Call.begin 3 true] [] 0).1.mpr
      ⟨3, by decide⟩
  ⟨hr,
    ((isReady_iff_some_begin_succeeded
      [Call.begin 0 false, Call.setRelayState 0b0101, Call.begin 3 true]
      [Call.setRelayState 0, Call.begin 0b1111 false] 7).2 hr).1,
    ((isReady_iff_some_begin_succeeded
      [Call.begin 0 false, Call.setRelayState 0b0101, Call.begin 3 true]
      [Call.setRelayState 0, Call.begin 0b1111 false] 7).2 hr).2.1⟩

end RelayBox
